import Mathlib

/-!
Verification of the Mood Tracker backend (mood-tracker/backend/server.py).

The backend is a FastAPI application over a MongoDB collection of mood
documents.  We embed it shallowly:

* the collection is a `List StoredDoc` in natural (insertion) order;
* `find_one` is `List.find?` (first match in natural order);
* `update_one` rewrites the first matching document (`setFirst`);
* `delete_one` removes the first matching document (`List.eraseP`);
* `sort("date", -1)` is a merge sort, descending in the lexicographic
  order of the stored ISO date strings (MongoDB compares strings bytewise,
  which on UTF-8 agrees with codepoint order);
* nondeterministic inputs of the handlers (the uuid4 id, the ObjectId the
  storage engine assigns, the current UTC instant) are explicit arguments;
* the current UTC instant is carried as its ISO rendering, a `String`,
  since no code path inspects its structure.

`HTTPException` outcomes become an `ApiError` value; handler results are
`Except ApiError β × Store`, returning the (possibly unchanged) collection.
-/

/-- Calendar date, as carried by a parsed request body (Python `datetime.date`).
Python dates always have `1 ≤ year ≤ 9999`, `1 ≤ month ≤ 12`, `1 ≤ day ≤ 31`. -/
structure CalDate where
  year : Nat
  month : Nat
  day : Nat
deriving DecidableEq, Repr

/-- Bounds guaranteed by Python `datetime.date`; only the digit widths matter
for the order argument. -/
def CalDate.valid (d : CalDate) : Prop :=
  d.year < 10000 ∧ 0 < d.month ∧ d.month < 100 ∧ 0 < d.day ∧ d.day < 100

instance (d : CalDate) : Decidable d.valid := by
  unfold CalDate.valid; infer_instance

/-- Decimal digit character; the argument is reduced mod 10, so
`digitChar (n / 100)` is the hundreds digit of `n`. -/
def digitChar (n : Nat) : Char := Char.ofNat (48 + n % 10)

/-- Characters of `date.isoformat()`: zero-padded `YYYY-MM-DD`. -/
def CalDate.isoChars (d : CalDate) : List Char :=
  [digitChar (d.year / 1000), digitChar (d.year / 100), digitChar (d.year / 10),
   digitChar d.year, '-', digitChar (d.month / 10), digitChar d.month, '-',
   digitChar (d.day / 10), digitChar d.day]

/-- The ISO date string `date.isoformat()`. -/
def CalDate.isoStr (d : CalDate) : String := String.mk d.isoChars

/-- Strict calendar order on dates. -/
def CalDate.lt (a b : CalDate) : Prop :=
  a.year < b.year ∨ (a.year = b.year ∧
    (a.month < b.month ∨ (a.month = b.month ∧ a.day < b.day)))

instance (a b : CalDate) : Decidable (CalDate.lt a b) := by
  unfold CalDate.lt; infer_instance

/-- Document as stored in the `moods` collection: the MongoDB-internal
`_id` (modelled as `oid`) plus the six public fields written by the
handlers.  `date` holds the ISO string `mood.date.isoformat()`. -/
structure StoredDoc where
  oid : Nat
  id : String
  date : String
  mood_type : String
  emoji : String
  notes : String
  timestamp : String
deriving DecidableEq, Repr

/-- The moods collection in natural (insertion) order. -/
abbrev Store := List StoredDoc

/-- Pydantic response model `MoodEntryResponse`: exactly the six public
fields. -/
structure MoodEntryResponse where
  id : String
  date : String
  mood_type : String
  emoji : String
  notes : String
  timestamp : String
deriving DecidableEq, Repr

/-- Serialization of a stored document: `mood.pop("_id", None)` followed by
`MoodEntryResponse(**mood)` keeps the six public fields and drops `oid`. -/
def popId (d : StoredDoc) : MoodEntryResponse :=
  { id := d.id, date := d.date, mood_type := d.mood_type, emoji := d.emoji,
    notes := d.notes, timestamp := d.timestamp }

/-- The `HTTPException` outcomes raised by the handlers. -/
inductive ApiError where
  | duplicateDate
  | notFound
  | internal
deriving DecidableEq, Repr

/-- HTTP status code attached to each error. -/
def ApiError.status : ApiError → Nat
  | .duplicateDate => 400
  | .notFound => 404
  | .internal => 500

/-- Pydantic request model `MoodEntry`.  `notes : Optional[str] = ""`, so an
omitted field arrives as `some ""` and an explicit JSON null as `none`. -/
structure MoodEntryReq where
  date : CalDate
  mood_type : String
  emoji : String
  notes : Option String
deriving DecidableEq, Repr

/-- Python coercion `mood.notes or ""`: `None` and `""` map to `""`,
any other string maps to itself. -/
def notesOrEmpty : Option String → String
  | none => ""
  | some s => s

/-- Static reference triple from `MOOD_OPTIONS`. -/
structure MoodOption where
  type : String
  emoji : String
  label : String
deriving DecidableEq, Repr

/-- The ten static mood options.  The emoji literals reproduce the exact
codepoints present in the source file. -/
def MOOD_OPTIONS : List MoodOption :=
  [⟨"very_happy", "\uF8FF\u00FC\u00F2\u00D1", "Very Happy"⟩,
   ⟨"happy", "\uF8FF\u00FC\u00F2\u00E4", "Happy"⟩,
   ⟨"content", "\uF8FF\u00FC\u00F2\u00E5", "Content"⟩,
   ⟨"neutral", "\uF8FF\u00FC\u00F2\u00EA", "Neutral"⟩,
   ⟨"sad", "\uF8FF\u00FC\u00F2\u00EE", "Sad"⟩,
   ⟨"very_sad", "\uF8FF\u00FC\u00F2\u00A2", "Very Sad"⟩,
   ⟨"angry", "\uF8FF\u00FC\u00F2\u00A7", "Angry"⟩,
   ⟨"anxious", "\uF8FF\u00FC\u00F2\u221E", "Anxious"⟩,
   ⟨"tired", "\uF8FF\u00FC\u00F2\u00A5", "Tired"⟩,
   ⟨"excited", "\uF8FF\u00FC\u00A7\u00A9", "Excited"⟩]

/-- Placeholder emoji used by the stats endpoint when no static option
matches; reproduces the exact codepoints in the source. -/
def placeholderEmoji : String := "\u201A\u00F9\u00EC"

/-- POST `/api/moods` (`create_mood_entry`): reject when a document with the
same ISO date exists, otherwise insert the new document and return it.
`newId` is the `uuid4` value, `oid` the ObjectId assigned by `insert_one`,
`now` the ISO rendering of `datetime.utcnow()`. -/
def create_mood_entry (s : Store) (mood : MoodEntryReq) (newId : String)
    (oid : Nat) (now : String) : Except ApiError MoodEntryResponse × Store :=
  match s.find? (fun doc => doc.date == mood.date.isoStr) with
  | some _ => (.error .duplicateDate, s)
  | none =>
    let d : StoredDoc :=
      { oid := oid, id := newId, date := mood.date.isoStr,
        mood_type := mood.mood_type, emoji := mood.emoji,
        notes := notesOrEmpty mood.notes, timestamp := now }
    (.ok (popId d), s ++ [d])

/-- Descending comparison on the stored date strings, the Bool comparator
for the merge sort modelling `sort("date", -1)`. -/
def dateDesc (a b : StoredDoc) : Bool := decide (b.date ≤ a.date)

/-- The collection sorted by date descending, as produced by
`find({}).sort("date", -1)`. -/
def sortByDateDesc (s : Store) : Store := s.mergeSort dateDesc

/-- GET `/api/moods` (`get_mood_entries`): all documents sorted by date
descending, each serialized with `_id` popped. -/
def get_mood_entries (s : Store) : List MoodEntryResponse :=
  (sortByDateDesc s).map popId

/-- GET `/api/moods/{mood_id}` (`get_mood_entry`): first document whose `id`
field matches, or a 404. -/
def get_mood_entry (s : Store) (mood_id : String) :
    Except ApiError MoodEntryResponse :=
  match s.find? (fun doc => doc.id == mood_id) with
  | some mood => .ok (popId mood)
  | none => .error .notFound

/-- Rewrite the first document satisfying `p` with `f`, as `update_one`
does with a `$set` document. -/
def setFirst (p : StoredDoc → Bool) (f : StoredDoc → StoredDoc) :
    Store → Store
  | [] => []
  | d :: rest => if p d then f d :: rest else d :: setFirst p f rest

/-- The `$set` document of `update_mood_entry`: overwrite `mood_type`,
`emoji`, `notes` (coerced) and `timestamp`; `id`, `date` and `_id` are not
mentioned, hence untouched. -/
def applyUpdate (mood : MoodEntryReq) (now : String) (doc : StoredDoc) :
    StoredDoc :=
  { doc with mood_type := mood.mood_type, emoji := mood.emoji,
             notes := notesOrEmpty mood.notes, timestamp := now }

/-- PUT `/api/moods/{mood_id}` (`update_mood_entry`): 404 when no document
has the id; otherwise `$set` the first matching document, re-fetch it and
return it.  A failed re-fetch would crash the handler into the 500 branch. -/
def update_mood_entry (s : Store) (mood_id : String) (mood : MoodEntryReq)
    (now : String) : Except ApiError MoodEntryResponse × Store :=
  match s.find? (fun doc => doc.id == mood_id) with
  | none => (.error .notFound, s)
  | some _ =>
    let s' := setFirst (fun doc => doc.id == mood_id) (applyUpdate mood now) s
    match s'.find? (fun doc => doc.id == mood_id) with
    | some updated => (.ok (popId updated), s')
    | none => (.error .internal, s')

/-- DELETE `/api/moods/{mood_id}` (`delete_mood_entry`): `delete_one`
removes the first matching document; `deleted_count == 0` (nothing removed)
yields a 404, otherwise a success message. -/
def delete_mood_entry (s : Store) (mood_id : String) :
    Except ApiError String × Store :=
  let s' := s.eraseP (fun doc => doc.id == mood_id)
  if s'.length = s.length then (.error .notFound, s)
  else (.ok "Mood entry deleted successfully", s')

/-- True when a CSV field must be quoted: it contains the delimiter, the
quote character, or a character of the line terminator (QUOTE_MINIMAL). -/
def needsQuote (s : List Char) : Bool :=
  s.any (fun c => c == ',' || c == '"' || c == '\r' || c == '\n')

/-- CSV quote escaping: double every quote character. -/
def escapeQuotes : List Char → List Char
  | [] => []
  | c :: rest =>
    if c == '"' then '"' :: '"' :: escapeQuotes rest
    else c :: escapeQuotes rest

/-- One CSV field as written by `csv.writer` (QUOTE_MINIMAL dialect). -/
def csvField (s : List Char) : List Char :=
  if needsQuote s then '"' :: (escapeQuotes s ++ ['"']) else s

/-- Join fields with the comma delimiter. -/
def joinComma : List (List Char) → List Char
  | [] => []
  | [f] => f
  | f :: g :: rest => f ++ ',' :: joinComma (g :: rest)

/-- One CSV record: quoted fields joined by commas, terminated by CRLF
(the default line terminator of `csv.writer`). -/
def csvLine (fields : List (List Char)) : List Char :=
  joinComma (fields.map csvField) ++ ['\r', '\n']

/-- Python `str.title()` on a character list: an alphabetic character is
uppercased after a non-alphabetic position and lowercased after an
alphabetic one. -/
def titleAux : Bool → List Char → List Char
  | _, [] => []
  | prevAlpha, c :: rest =>
    (if c.isAlpha then (if prevAlpha then c.toLower else c.toUpper) else c)
      :: titleAux c.isAlpha rest

/-- Python `str.title()`. -/
def titleCase (s : String) : String := String.mk (titleAux false s.data)

/-- Rendering of the Mood column:
`mood["mood_type"].replace("_", " ").title()` (single-character replace is a
character map). -/
def moodRender (mood_type : String) : String :=
  titleCase (String.mk (mood_type.data.map (fun c => if c == '_' then ' ' else c)))

/-- The header row written by `export_moods_csv`. -/
def csvHeader : List (List Char) :=
  [("Date").data, ("Mood").data, ("Emoji").data, ("Notes").data,
   ("Timestamp").data]

/-- The data row written for one document: date, rendered mood, emoji,
notes, and the ISO rendering of the timestamp. -/
def csvRowOf (d : StoredDoc) : List (List Char) :=
  [d.date.data, (moodRender d.mood_type).data, d.emoji.data, d.notes.data,
   d.timestamp.data]

/-- GET `/api/moods/export/csv` (`export_moods_csv`): header row followed by
one row per document, documents sorted by date descending. -/
def export_moods_csv (s : Store) : String :=
  String.mk (((csvHeader :: (sortByDateDesc s).map csvRowOf).map csvLine).flatten)

/-- Number of lines of a CSV document in which every record is
CRLF-terminated: the number of LF characters. -/
def numLines (s : String) : Nat := s.data.count '\n'

/-- One element of the `mood_distribution` array of the stats response. -/
structure StatEntry where
  mood_type : String
  count : Nat
  emoji : String
  label : String
deriving DecidableEq, Repr

/-- Number of documents with the given `mood_type` (the `$sum: 1`
accumulator of the `$group` stage). -/
def countType (s : Store) (t : String) : Nat :=
  (s.filter (fun doc => doc.mood_type == t)).length

/-- The `$group` stage keyed on `$mood_type`: one (type, count) pair per
distinct mood type present.  MongoDB leaves the group order unspecified; we
take the order of last occurrence (`List.dedup`), which the subsequent
count sort makes irrelevant to every property proved below. -/
def groupCounts (s : Store) : List (String × Nat) :=
  ((s.map (fun doc => doc.mood_type)).dedup).map (fun t => (t, countType s t))

/-- Enrichment performed in the Python loop over the aggregate results:
look the mood type up in `MOOD_OPTIONS`; fall back to the placeholder emoji
and the title-cased type. -/
def enrich (p : String × Nat) : StatEntry :=
  match MOOD_OPTIONS.find? (fun m => m.type == p.1) with
  | some m => ⟨p.1, p.2, m.emoji, m.label⟩
  | none => ⟨p.1, p.2, placeholderEmoji, titleCase p.1⟩

/-- The `$sort: count descending` stage followed by the enrichment loop. -/
def mood_distribution (s : Store) : List StatEntry :=
  ((groupCounts s).mergeSort (fun a b => decide (b.2 ≤ a.2))).map enrich

/-- Response of GET `/api/stats`. -/
structure StatsResponse where
  total_entries : Nat
  mood_distribution : List StatEntry
deriving DecidableEq, Repr

/-- GET `/api/stats` (`get_mood_stats`): document count plus the sorted,
enriched distribution. -/
def get_mood_stats (s : Store) : StatsResponse :=
  ⟨s.length, mood_distribution s⟩

/-- Store states reachable from the empty collection by sequentially
executed create, update and delete requests (successful or failed). -/
inductive Reachable : Store → Prop where
  | empty : Reachable []
  | create {s} (mood : MoodEntryReq) (newId : String) (oid : Nat)
      (now : String) : Reachable s →
      Reachable (create_mood_entry s mood newId oid now).2
  | update {s} (mood_id : String) (mood : MoodEntryReq) (now : String) :
      Reachable s → Reachable (update_mood_entry s mood_id mood now).2
  | delete {s} (mood_id : String) : Reachable s →
      Reachable (delete_mood_entry s mood_id).2

/-! ### Helper lemmas -/

theorem lex_cons_iff {r : Char → Char → Prop} {a b : Char}
    {l₁ l₂ : List Char} :
    List.Lex r (a :: l₁) (b :: l₂) ↔ r a b ∨ (a = b ∧ List.Lex r l₁ l₂) := by
  constructor
  · intro h
    cases h with
    | rel h => exact Or.inl h
    | cons h => exact Or.inr ⟨rfl, h⟩
  · rintro (h | ⟨rfl, h⟩)
    · exact List.Lex.rel h
    · exact List.Lex.cons h

theorem lex_nil_iff {r : Char → Char → Prop} {l : List Char} :
    List.Lex r l [] ↔ False := by
  constructor
  · intro h
    cases h
  · intro h
    cases h

theorem digitChar_lt_iff {x y : Nat} :
    digitChar x < digitChar y ↔ x % 10 < y % 10 := by
  have hx : x % 10 < 10 := Nat.mod_lt x (by norm_num)
  have hy : y % 10 < 10 := Nat.mod_lt y (by norm_num)
  unfold digitChar
  obtain ⟨a, ha⟩ : ∃ a, x % 10 = a := ⟨_, rfl⟩
  obtain ⟨b, hb⟩ : ∃ b, y % 10 = b := ⟨_, rfl⟩
  rw [ha, hb]
  rw [ha] at hx
  rw [hb] at hy
  interval_cases a <;> interval_cases b <;> decide

theorem digitChar_eq_iff {x y : Nat} :
    digitChar x = digitChar y ↔ x % 10 = y % 10 := by
  have hx : x % 10 < 10 := Nat.mod_lt x (by norm_num)
  have hy : y % 10 < 10 := Nat.mod_lt y (by norm_num)
  unfold digitChar
  obtain ⟨a, ha⟩ : ∃ a, x % 10 = a := ⟨_, rfl⟩
  obtain ⟨b, hb⟩ : ∃ b, y % 10 = b := ⟨_, rfl⟩
  rw [ha, hb]
  rw [ha] at hx
  rw [hb] at hy
  interval_cases a <;> interval_cases b <;> decide

/-- On valid dates, the lexicographic order of the ISO strings (the order
MongoDB sorts by) coincides with the calendar order. -/
theorem isoStr_lt_iff {a b : CalDate} (ha : a.valid) (hb : b.valid) :
    a.isoStr < b.isoStr ↔ a.lt b := by
  obtain ⟨ha1, _, ha3, _, ha5⟩ := ha
  obtain ⟨hb1, _, hb3, _, hb5⟩ := hb
  rw [CalDate.isoStr, CalDate.isoStr, String.lt_iff_toList_lt]
  show List.Lex (· < ·) a.isoChars b.isoChars ↔ _
  rw [CalDate.isoChars, CalDate.isoChars, CalDate.lt]
  have hdash : ¬ ('-' : Char) < '-' := by decide
  simp only [lex_cons_iff, lex_nil_iff, digitChar_lt_iff, digitChar_eq_iff,
    hdash, false_or, eq_self_iff_true, true_and, and_false, or_false]
  have e1 : a.year / 10 / 10 = a.year / 100 := by
    rw [Nat.div_div_eq_div_mul]
  have e2 : a.year / 100 / 10 = a.year / 1000 := by
    rw [Nat.div_div_eq_div_mul]
  have e3 : a.year / 1000 / 10 = a.year / 10000 := by
    rw [Nat.div_div_eq_div_mul]
  have e4 : b.year / 10 / 10 = b.year / 100 := by
    rw [Nat.div_div_eq_div_mul]
  have e5 : b.year / 100 / 10 = b.year / 1000 := by
    rw [Nat.div_div_eq_div_mul]
  have e6 : b.year / 1000 / 10 = b.year / 10000 := by
    rw [Nat.div_div_eq_div_mul]
  have e7 : a.month / 10 / 10 = a.month / 100 := by
    rw [Nat.div_div_eq_div_mul]
  have e8 : b.month / 10 / 10 = b.month / 100 := by
    rw [Nat.div_div_eq_div_mul]
  have e9 : a.day / 10 / 10 = a.day / 100 := by
    rw [Nat.div_div_eq_div_mul]
  have e10 : b.day / 10 / 10 = b.day / 100 := by
    rw [Nat.div_div_eq_div_mul]
  omega

theorem mem_setFirst {p : StoredDoc → Bool} {f : StoredDoc → StoredDoc}
    {s : Store} {doc : StoredDoc} (h : doc ∈ setFirst p f s) :
    doc ∈ s ∨ ∃ d ∈ s, doc = f d := by
  induction s with
  | nil => cases h
  | cons d rest ih =>
    rw [setFirst] at h
    by_cases hp : p d
    · rw [if_pos hp] at h
      cases h with
      | head => exact Or.inr ⟨d, List.mem_cons_self _ _, rfl⟩
      | tail _ h => exact Or.inl (List.mem_cons_of_mem _ h)
    · rw [if_neg hp] at h
      cases h with
      | head => exact Or.inl (List.mem_cons_self _ _)
      | tail _ h =>
        rcases ih h with h' | ⟨d', hd', rfl⟩
        · exact Or.inl (List.mem_cons_of_mem _ h')
        · exact Or.inr ⟨d', List.mem_cons_of_mem _ hd', rfl⟩

/-! ### C1: duplicate-date creation -/

/-- C1: when the store already holds an entry for the requested date,
`create_mood_entry` fails with the duplicate-date error, whose HTTP status
is 400, and the store — the pre-existing entry and everything else — is
returned unchanged, with no new entry inserted. -/
theorem create_duplicate_date (s : Store) (mood : MoodEntryReq)
    (newId : String) (oid : Nat) (now : String)
    (h : ∃ doc ∈ s, doc.date = mood.date.isoStr) :
    create_mood_entry s mood newId oid now = (.error .duplicateDate, s) ∧
    ApiError.duplicateDate.status = 400 := by
  obtain ⟨doc, hmem, hdate⟩ := h
  refine ⟨?_, rfl⟩
  unfold create_mood_entry
  cases hf : s.find? (fun doc => doc.date == mood.date.isoStr) with
  | some d => rfl
  | none =>
    rw [List.find?_eq_none] at hf
    have := hf doc hmem
    rw [hdate] at this
    simp at this

theorem create_duplicate_date_witness :
    create_mood_entry [⟨0, "a", "2024-01-01", "happy", "e", "", "t"⟩]
      ⟨⟨2024, 1, 1⟩, "sad", "f", none⟩ "b" 1 "t2"
      = (.error .duplicateDate,
         [⟨0, "a", "2024-01-01", "happy", "e", "", "t"⟩]) ∧
    ApiError.duplicateDate.status = 400 :=
  create_duplicate_date _ _ _ _ _
    ⟨⟨0, "a", "2024-01-01", "happy", "e", "", "t"⟩, by decide, by decide⟩

/-! ### C10: notes are never null -/

/-- C10: stored notes are plain strings.  The request carries
`Optional[str]`; both handlers persist `mood.notes or ""`, so an explicit
null (`none`) — not just an omitted field (which pydantic defaults to
`some ""`) — is coerced to the empty string: any document a create or
update with null notes touches has empty notes afterwards. -/
theorem notes_coerced_to_empty :
    notesOrEmpty none = "" ∧ notesOrEmpty (some "") = "" ∧
    (∀ (s : Store) (mood : MoodEntryReq) (newId : String) (oid : Nat)
       (now : String), mood.notes = none →
       ∀ doc ∈ (create_mood_entry s mood newId oid now).2,
         doc ∈ s ∨ doc.notes = "") ∧
    (∀ (s : Store) (mood_id : String) (mood : MoodEntryReq) (now : String),
       mood.notes = none →
       ∀ doc ∈ (update_mood_entry s mood_id mood now).2,
         doc ∈ s ∨ doc.notes = "") := by
  refine ⟨rfl, rfl, ?_, ?_⟩
  · intro s mood newId oid now hn doc hd
    unfold create_mood_entry at hd
    cases hf : s.find? (fun doc => doc.date == mood.date.isoStr) with
    | some d =>
      rw [hf] at hd
      exact Or.inl hd
    | none =>
      rw [hf] at hd
      rcases List.mem_append.mp hd with h | h
      · exact Or.inl h
      · right
        rw [List.mem_singleton.mp h]
        rw [hn]
        rfl
  · intro s mood_id mood now hn doc hd
    unfold update_mood_entry at hd
    cases hf : s.find? (fun doc => doc.id == mood_id) with
    | none =>
      rw [hf] at hd
      exact Or.inl hd
    | some d =>
      rw [hf] at hd
      dsimp only at hd
      have hd' : doc ∈ setFirst (fun doc => doc.id == mood_id)
          (applyUpdate mood now) s := by
        cases hf2 : (setFirst (fun doc => doc.id == mood_id)
            (applyUpdate mood now) s).find? (fun doc => doc.id == mood_id) with
        | some u =>
          rw [hf2] at hd
          exact hd
        | none =>
          rw [hf2] at hd
          exact hd
      rcases mem_setFirst hd' with h | ⟨d', _, rfl⟩
      · exact Or.inl h
      · right
        rw [show (applyUpdate mood now d').notes = notesOrEmpty mood.notes
              from rfl, hn]
        rfl

theorem notes_coerced_to_empty_witness :
    notesOrEmpty none = "" ∧ notesOrEmpty (some "") = "" ∧
    (∀ doc ∈ (create_mood_entry [] ⟨⟨2024, 1, 1⟩, "happy", "e", none⟩
        "a" 0 "t").2, doc ∈ ([] : Store) ∨ doc.notes = "") ∧
    (∀ doc ∈ (update_mood_entry [⟨0, "a", "2024-01-01", "happy", "e", "x", "t"⟩]
        "a" ⟨⟨2024, 1, 1⟩, "sad", "f", none⟩ "t2").2,
       doc ∈ [(⟨0, "a", "2024-01-01", "happy", "e", "x", "t"⟩ : StoredDoc)] ∨
       doc.notes = "") :=
  ⟨notes_coerced_to_empty.1, notes_coerced_to_empty.2.1,
   notes_coerced_to_empty.2.2.1 [] ⟨⟨2024, 1, 1⟩, "happy", "e", none⟩
     "a" 0 "t" rfl,
   notes_coerced_to_empty.2.2.2 [⟨0, "a", "2024-01-01", "happy", "e", "x", "t"⟩]
     "a" ⟨⟨2024, 1, 1⟩, "sad", "f", none⟩ "t2" rfl⟩

/-! ### C2: at most one entry per date -/

theorem map_date_setFirst (p : StoredDoc → Bool) (f : StoredDoc → StoredDoc)
    (s : Store) (hf : ∀ d, (f d).date = d.date) :
    (setFirst p f s).map (fun d => d.date) = s.map (fun d => d.date) := by
  induction s with
  | nil => rfl
  | cons d rest ih =>
    rw [setFirst]
    by_cases hp : p d
    · rw [if_pos hp]
      simp [hf d]
    · rw [if_neg hp]
      simp [ih]

/-- The `$set` document never mentions `date`, so an update — successful or
not — leaves the date column of the collection untouched. -/
theorem update_map_date (s : Store) (mood_id : String) (mood : MoodEntryReq)
    (now : String) :
    ((update_mood_entry s mood_id mood now).2).map (fun d => d.date) =
      s.map (fun d => d.date) := by
  unfold update_mood_entry
  cases hf : s.find? (fun doc => doc.id == mood_id) with
  | none => rfl
  | some d =>
    dsimp only
    cases hf2 : (setFirst (fun doc => doc.id == mood_id)
        (applyUpdate mood now) s).find? (fun doc => doc.id == mood_id) with
    | some u => exact map_date_setFirst _ _ _ (fun d => rfl)
    | none => exact map_date_setFirst _ _ _ (fun d => rfl)

theorem create_dates_nodup (s : Store) (mood : MoodEntryReq) (newId : String)
    (oid : Nat) (now : String)
    (h : (s.map (fun d => d.date)).Nodup) :
    (((create_mood_entry s mood newId oid now).2).map (fun d => d.date)).Nodup := by
  unfold create_mood_entry
  cases hf : s.find? (fun doc => doc.date == mood.date.isoStr) with
  | some d => exact h
  | none =>
    dsimp only
    rw [List.map_append, List.nodup_append]
    refine ⟨h, List.nodup_singleton _, ?_⟩
    intro x hx hx'
    rw [List.find?_eq_none] at hf
    rcases List.mem_map.mp hx with ⟨doc, hdoc, rfl⟩
    have hne := hf doc hdoc
    have hx2 : doc.date = mood.date.isoStr := List.mem_singleton.mp hx'
    rw [hx2] at hne
    simp at hne

theorem delete_snd_sublist (s : Store) (mood_id : String) :
    ((delete_mood_entry s mood_id).2).Sublist s := by
  unfold delete_mood_entry
  dsimp only
  split
  · exact List.Sublist.refl s
  · exact List.eraseP_sublist s

/-- C2: every store reachable from the empty store by sequences of create,
update and delete requests has pairwise distinct dates (at most one entry
per date), and update never changes the date column, so it cannot break
the invariant. -/
theorem one_entry_per_date :
    (∀ s : Store, Reachable s → (s.map (fun d => d.date)).Nodup) ∧
    (∀ (s : Store) (mood_id : String) (mood : MoodEntryReq) (now : String),
      ((update_mood_entry s mood_id mood now).2).map (fun d => d.date) =
        s.map (fun d => d.date)) := by
  refine ⟨?_, update_map_date⟩
  intro s h
  induction h with
  | empty => exact List.nodup_nil
  | create mood newId oid now _ ih => exact create_dates_nodup _ _ _ _ _ ih
  | update mood_id mood now _ ih =>
    rw [update_map_date]
    exact ih
  | delete mood_id _ ih =>
    exact List.Nodup.sublist (List.Sublist.map _ (delete_snd_sublist _ _)) ih

theorem one_entry_per_date_witness :
    (((create_mood_entry [] ⟨⟨2024, 1, 1⟩, "happy", "e", none⟩
        "a" 0 "t").2).map (fun d => d.date)).Nodup ∧
    ((update_mood_entry [⟨0, "a", "2024-01-01", "happy", "e", "", "t"⟩]
        "a" ⟨⟨2024, 1, 1⟩, "sad", "f", none⟩ "t2").2).map (fun d => d.date) =
      [(⟨0, "a", "2024-01-01", "happy", "e", "", "t"⟩ : StoredDoc)].map
        (fun d => d.date) :=
  ⟨one_entry_per_date.1 _
     (Reachable.create ⟨⟨2024, 1, 1⟩, "happy", "e", none⟩ "a" 0 "t"
       Reachable.empty),
   one_entry_per_date.2 _ "a" ⟨⟨2024, 1, 1⟩, "sad", "f", none⟩ "t2"⟩

/-! ### C3: successful creation -/

/-- C3: when no stored entry has the requested date (and the generated uuid
is fresh, which is what generation promises), creation succeeds: the store
grows by exactly one document carrying the generated id, the given date,
mood type and emoji, the coerced notes and the current instant; the handler
returns that full record, and a get with the returned id retrieves it. -/
theorem create_fresh_date (s : Store) (mood : MoodEntryReq) (newId : String)
    (oid : Nat) (now : String)
    (hdate : ∀ doc ∈ s, doc.date ≠ mood.date.isoStr)
    (hid : ∀ doc ∈ s, doc.id ≠ newId) :
    ∃ d : StoredDoc,
      create_mood_entry s mood newId oid now = (.ok (popId d), s ++ [d]) ∧
      d.id = newId ∧ d.date = mood.date.isoStr ∧
      d.mood_type = mood.mood_type ∧ d.emoji = mood.emoji ∧
      d.notes = notesOrEmpty mood.notes ∧
      (mood.notes = none → d.notes = "") ∧
      (∀ t, mood.notes = some t → d.notes = t) ∧
      d.timestamp = now ∧
      get_mood_entry (s ++ [d]) newId = .ok (popId d) := by
  have hf : s.find? (fun doc => doc.date == mood.date.isoStr) = none := by
    rw [List.find?_eq_none]
    intro x hx
    simpa using hdate x hx
  refine ⟨⟨oid, newId, mood.date.isoStr, mood.mood_type, mood.emoji,
    notesOrEmpty mood.notes, now⟩, ?_, rfl, rfl, rfl, rfl, rfl, ?_, ?_, rfl, ?_⟩
  · unfold create_mood_entry
    rw [hf]
  · intro hn
    rw [hn]
    rfl
  · intro t ht
    rw [ht]
    rfl
  · have h1 : s.find? (fun doc => doc.id == newId) = none := by
      rw [List.find?_eq_none]
      intro x hx
      simpa using hid x hx
    have h2 : ([(⟨oid, newId, mood.date.isoStr, mood.mood_type, mood.emoji,
        notesOrEmpty mood.notes, now⟩ : StoredDoc)] : Store).find?
          (fun doc => doc.id == newId)
        = some ⟨oid, newId, mood.date.isoStr, mood.mood_type, mood.emoji,
            notesOrEmpty mood.notes, now⟩ :=
      List.find?_cons_of_pos _ (by simp)
    unfold get_mood_entry
    rw [List.find?_append, h1, Option.none_or, h2]

theorem create_fresh_date_witness :
    ∃ d : StoredDoc,
      create_mood_entry [] ⟨⟨2024, 1, 5⟩, "happy", "e", none⟩ "a" 0 "t"
        = (.ok (popId d), [] ++ [d]) ∧
      d.id = "a" ∧ d.date = (⟨2024, 1, 5⟩ : CalDate).isoStr ∧
      d.mood_type = "happy" ∧ d.emoji = "e" ∧
      d.notes = notesOrEmpty none ∧
      ((none : Option String) = none → d.notes = "") ∧
      (∀ t, (none : Option String) = some t → d.notes = t) ∧
      d.timestamp = "t" ∧
      get_mood_entry ([] ++ [d]) "a" = .ok (popId d) :=
  create_fresh_date [] ⟨⟨2024, 1, 5⟩, "happy", "e", none⟩ "a" 0 "t"
    (by intro doc h; cases h) (by intro doc h; cases h)

/-! ### C5: update -/

theorem setFirst_eq_map (mood_id : String) (f : StoredDoc → StoredDoc)
    (s : Store) (h : (s.map (fun d => d.id)).Nodup) :
    setFirst (fun d => d.id == mood_id) f s =
      s.map (fun d => if d.id = mood_id then f d else d) := by
  induction s with
  | nil => rfl
  | cons d rest ih =>
    rw [List.map_cons, List.nodup_cons] at h
    rw [setFirst, List.map_cons]
    by_cases hp : d.id = mood_id
    · have hb : (d.id == mood_id) = true := by simpa using hp
      rw [hb, if_pos rfl, if_pos hp]
      have hrest : List.map (fun x => if x.id = mood_id then f x else x) rest
          = rest := by
        have hall : ∀ x ∈ rest, (if x.id = mood_id then f x else x) = x := by
          intro x hx
          rw [if_neg]
          intro hxx
          exact h.1 (List.mem_map.mpr ⟨x, hx, by rw [hxx, hp]⟩)
        rw [List.map_congr_left hall, List.map_id']
      rw [hrest]
    · have hb : (d.id == mood_id) = false := by simpa using hp
      rw [hb]
      rw [if_neg (by simp), if_neg hp, ih h.2]

theorem setFirst_cons_pos {p : StoredDoc → Bool} {f : StoredDoc → StoredDoc}
    {d : StoredDoc} {rest : Store} (h : p d = true) :
    setFirst p f (d :: rest) = f d :: rest := by
  rw [setFirst, h, if_pos rfl]

theorem setFirst_cons_neg {p : StoredDoc → Bool} {f : StoredDoc → StoredDoc}
    {d : StoredDoc} {rest : Store} (h : p d = false) :
    setFirst p f (d :: rest) = d :: setFirst p f rest := by
  rw [setFirst, h]
  simp

theorem find?_setFirst {mood_id : String} {f : StoredDoc → StoredDoc}
    (hf : ∀ d, (f d).id = d.id) :
    ∀ {s : Store} {doc : StoredDoc},
      s.find? (fun d => d.id == mood_id) = some doc →
      (setFirst (fun d => d.id == mood_id) f s).find?
        (fun d => d.id == mood_id) = some (f doc) := by
  intro s
  induction s with
  | nil =>
    intro doc h
    simp at h
  | cons d rest ih =>
    intro doc h
    by_cases hp : (d.id == mood_id) = true
    · rw [List.find?_cons_of_pos (p := fun x => x.id == mood_id) rest hp] at h
      cases h
      rw [setFirst_cons_pos hp]
      refine List.find?_cons_of_pos (p := fun x => x.id == mood_id) rest ?_
      show ((f d).id == mood_id) = true
      rw [hf d]
      exact hp
    · have hb : (d.id == mood_id) = false := by
        cases hb2 : (d.id == mood_id) with
        | true => exact absurd hb2 hp
        | false => rfl
      rw [List.find?_cons_of_neg (p := fun x => x.id == mood_id) rest hp] at h
      rw [setFirst_cons_neg hb]
      rw [List.find?_cons_of_neg (p := fun x => x.id == mood_id)
        (setFirst (fun x => x.id == mood_id) f rest) hp]
      exact ih h

/-- C5: updating an id not present in the store fails with the not-found
error (HTTP 404) and changes nothing; updating a present id (ids are unique,
as uuid generation promises) overwrites exactly that document, setting
mood type, emoji, coerced notes and timestamp while preserving id and date,
leaves every other document unchanged, and returns the full updated
record. -/
theorem update_spec (s : Store) (mood_id : String) (mood : MoodEntryReq)
    (now : String) :
    (s.find? (fun d => d.id == mood_id) = none →
      update_mood_entry s mood_id mood now = (.error .notFound, s) ∧
      ApiError.notFound.status = 404) ∧
    (∀ doc, (s.map (fun d => d.id)).Nodup →
      s.find? (fun d => d.id == mood_id) = some doc →
      update_mood_entry s mood_id mood now =
        (.ok (popId (applyUpdate mood now doc)),
         s.map (fun d => if d.id = mood_id then applyUpdate mood now d else d)) ∧
      (applyUpdate mood now doc).id = doc.id ∧
      (applyUpdate mood now doc).date = doc.date ∧
      (applyUpdate mood now doc).mood_type = mood.mood_type ∧
      (applyUpdate mood now doc).emoji = mood.emoji ∧
      (applyUpdate mood now doc).notes = notesOrEmpty mood.notes ∧
      (applyUpdate mood now doc).timestamp = now ∧
      (∀ d ∈ s, d.id ≠ mood_id →
        d ∈ (update_mood_entry s mood_id mood now).2)) := by
  constructor
  · intro h
    refine ⟨?_, rfl⟩
    unfold update_mood_entry
    rw [h]
  · intro doc hnd hfind
    have hre := find?_setFirst (f := applyUpdate mood now) (fun d => rfl) hfind
    have hmap := setFirst_eq_map mood_id (applyUpdate mood now) s hnd
    have heq : update_mood_entry s mood_id mood now =
        (.ok (popId (applyUpdate mood now doc)),
         s.map (fun d => if d.id = mood_id then applyUpdate mood now d else d)) := by
      unfold update_mood_entry
      rw [hfind]
      dsimp only
      rw [hre, hmap]
    refine ⟨heq, rfl, rfl, rfl, rfl, rfl, rfl, ?_⟩
    intro d hd hne
    rw [heq]
    exact List.mem_map.mpr ⟨d, hd, by rw [if_neg hne]⟩

theorem update_spec_witness :
    (update_mood_entry [] "a" ⟨⟨2024, 1, 1⟩, "sad", "f", none⟩ "t2"
      = (.error .notFound, []) ∧ ApiError.notFound.status = 404) ∧
    update_mood_entry [⟨0, "a", "2024-01-01", "happy", "e", "", "t"⟩] "a"
        ⟨⟨2024, 1, 1⟩, "sad", "f", none⟩ "t2" =
      (.ok (popId (applyUpdate ⟨⟨2024, 1, 1⟩, "sad", "f", none⟩ "t2"
          ⟨0, "a", "2024-01-01", "happy", "e", "", "t"⟩)),
       [(⟨0, "a", "2024-01-01", "happy", "e", "", "t"⟩ : StoredDoc)].map
         (fun d => if d.id = "a"
            then applyUpdate ⟨⟨2024, 1, 1⟩, "sad", "f", none⟩ "t2" d
            else d)) :=
  ⟨(update_spec [] "a" ⟨⟨2024, 1, 1⟩, "sad", "f", none⟩ "t2").1 rfl,
   ((update_spec [⟨0, "a", "2024-01-01", "happy", "e", "", "t"⟩] "a"
       ⟨⟨2024, 1, 1⟩, "sad", "f", none⟩ "t2").2
     ⟨0, "a", "2024-01-01", "happy", "e", "", "t"⟩ (by decide) rfl).1⟩

/-! ### C6: delete -/

theorem eraseP_eq_filter (mood_id : String) (s : Store)
    (h : (s.map (fun d => d.id)).Nodup) :
    s.eraseP (fun d => d.id == mood_id) =
      s.filter (fun d => !(d.id == mood_id)) := by
  induction s with
  | nil => rfl
  | cons d rest ih =>
    rw [List.map_cons, List.nodup_cons] at h
    by_cases hp : d.id = mood_id
    · have hb : (d.id == mood_id) = true := by simpa using hp
      have hrest : List.filter (fun x => !(x.id == mood_id)) rest = rest := by
        rw [List.filter_eq_self]
        intro x hx
        have hne : x.id ≠ mood_id := by
          intro hxx
          exact h.1 (List.mem_map.mpr ⟨x, hx, by rw [hxx, hp]⟩)
        simpa using hne
      simp [List.eraseP_cons, List.filter_cons, hb, hrest]
    · have hb : (d.id == mood_id) = false := by simpa using hp
      simp [List.eraseP_cons, List.filter_cons, hb, ih h.2]

/-- C6: deleting an id with no matching document fails with the not-found
error (HTTP 404) and leaves the store unchanged; deleting a present id
(ids unique) removes exactly that document and returns the success message,
after which a get on the id fails with the not-found error while every
other document is still present. -/
theorem delete_spec (s : Store) (mood_id : String) :
    (s.find? (fun d => d.id == mood_id) = none →
      delete_mood_entry s mood_id = (.error .notFound, s) ∧
      ApiError.notFound.status = 404) ∧
    (∀ doc, (s.map (fun d => d.id)).Nodup →
      s.find? (fun d => d.id == mood_id) = some doc →
      delete_mood_entry s mood_id =
        (.ok "Mood entry deleted successfully",
         s.filter (fun d => !(d.id == mood_id))) ∧
      get_mood_entry (delete_mood_entry s mood_id).2 mood_id =
        .error .notFound ∧
      (∀ d ∈ s, d ≠ doc → d ∈ (delete_mood_entry s mood_id).2)) := by
  constructor
  · intro h
    rw [List.find?_eq_none] at h
    have herase : s.eraseP (fun d => d.id == mood_id) = s :=
      List.eraseP_of_forall_not h
    refine ⟨?_, rfl⟩
    unfold delete_mood_entry
    dsimp only
    rw [herase, if_pos rfl]
  · intro doc hnd hfind
    have hpdoc : (doc.id == mood_id) = true :=
      List.find?_some (p := fun (d : StoredDoc) => d.id == mood_id) hfind
    have hmem : doc ∈ s := List.mem_of_find?_eq_some hfind
    have hlen : (s.eraseP (fun d => d.id == mood_id)).length = s.length - 1 :=
      List.length_eraseP_of_mem hmem hpdoc
    have hpos : 0 < s.length := List.length_pos_of_mem hmem
    have hcond : ¬ ((s.eraseP (fun d => d.id == mood_id)).length = s.length) := by
      omega
    have hfilter := eraseP_eq_filter mood_id s hnd
    have heq : delete_mood_entry s mood_id =
        (.ok "Mood entry deleted successfully",
         s.filter (fun d => !(d.id == mood_id))) := by
      unfold delete_mood_entry
      dsimp only
      rw [if_neg hcond, hfilter]
    refine ⟨heq, ?_, ?_⟩
    · have hfnone : (s.filter (fun d => !(d.id == mood_id))).find?
          (fun d => d.id == mood_id) = none := by
        rw [List.find?_eq_none]
        intro x hx
        have hx2 := (List.mem_filter.mp hx).2
        simp only [Bool.not_eq_true'] at hx2
        simp [hx2]
      rw [heq]
      unfold get_mood_entry
      dsimp only
      rw [hfnone]
    · intro d hd hne
      rw [heq]
      dsimp only
      refine List.mem_filter.mpr ⟨hd, ?_⟩
      have hdocid : doc.id = mood_id := by simpa using hpdoc
      have hdne : d.id ≠ mood_id := by
        intro hdd
        exact hne (List.inj_on_of_nodup_map hnd hd hmem (by rw [hdd, hdocid]))
      simpa using hdne

theorem delete_spec_witness :
    (delete_mood_entry [] "a" = (.error .notFound, []) ∧
     ApiError.notFound.status = 404) ∧
    delete_mood_entry [⟨0, "a", "2024-01-01", "happy", "e", "", "t"⟩] "a" =
      (.ok "Mood entry deleted successfully",
       [(⟨0, "a", "2024-01-01", "happy", "e", "", "t"⟩ : StoredDoc)].filter
         (fun d => !(d.id == "a"))) ∧
    get_mood_entry
        (delete_mood_entry [⟨0, "a", "2024-01-01", "happy", "e", "", "t"⟩]
          "a").2 "a" = .error .notFound :=
  ⟨(delete_spec [] "a").1 rfl,
   ((delete_spec [⟨0, "a", "2024-01-01", "happy", "e", "", "t"⟩] "a").2
     ⟨0, "a", "2024-01-01", "happy", "e", "", "t"⟩ (by decide) rfl).1,
   ((delete_spec [⟨0, "a", "2024-01-01", "happy", "e", "", "t"⟩] "a").2
     ⟨0, "a", "2024-01-01", "happy", "e", "", "t"⟩ (by decide) rfl).2.1⟩

/-! ### C4: listing sorted by date descending -/

theorem sortByDateDesc_sorted (s : Store) :
    (sortByDateDesc s).Pairwise (fun a b => b.date ≤ a.date) := by
  have htrans : ∀ a b c : StoredDoc, dateDesc a b = true →
      dateDesc b c = true → dateDesc a c = true := by
    intro a b c hab hbc
    simp only [dateDesc, decide_eq_true_eq] at hab hbc ⊢
    exact le_trans hbc hab
  have htotal : ∀ a b : StoredDoc, (dateDesc a b || dateDesc b a) = true := by
    intro a b
    simp only [dateDesc, Bool.or_eq_true, decide_eq_true_eq]
    exact le_total b.date a.date
  have hs := List.sorted_mergeSort htrans htotal s
  exact hs.imp (fun h => by simpa [dateDesc, decide_eq_true_eq] using h)

/-- C4: for every store, whatever the insertion order, the list endpoint
returns exactly the stored entries (a permutation of them, serialized) in
weakly descending order of their date strings; and on valid dates the
ISO-string order used by the sort coincides with the calendar order, so the
most recent calendar date comes first. -/
theorem list_sorted_by_date_desc :
    (∀ s : Store,
      (get_mood_entries s).Perm (s.map popId) ∧
      (get_mood_entries s).Pairwise (fun a b => b.date ≤ a.date)) ∧
    (∀ a b : CalDate, a.valid → b.valid →
      (a.isoStr < b.isoStr ↔ a.lt b)) := by
  refine ⟨?_, fun a b ha hb => isoStr_lt_iff ha hb⟩
  intro s
  constructor
  · exact List.Perm.map popId (List.mergeSort_perm s dateDesc)
  · exact List.Pairwise.map popId (fun a b h => h) (sortByDateDesc_sorted s)

theorem list_sorted_by_date_desc_witness :
    (get_mood_entries [⟨0, "a", "2024-01-02", "happy", "e", "", "t"⟩,
        ⟨1, "b", "2024-01-10", "sad", "f", "", "t"⟩]).Pairwise
      (fun a b => b.date ≤ a.date) ∧
    ((⟨2024, 1, 2⟩ : CalDate).isoStr < (⟨2024, 1, 10⟩ : CalDate).isoStr ↔
      (⟨2024, 1, 2⟩ : CalDate).lt ⟨2024, 1, 10⟩) :=
  ⟨(list_sorted_by_date_desc.1 _).2,
   list_sorted_by_date_desc.2 ⟨2024, 1, 2⟩ ⟨2024, 1, 10⟩
     (by decide) (by decide)⟩

/-! ### C9: responses carry exactly the six public fields -/

/-- C9: every entry-carrying success response of create, list, get and
update is the serialization `popId` of a stored document; `popId` is
oblivious to the internal `_id` (`oid`) field, and a `MoodEntryResponse`
consists of exactly the six public fields. -/
theorem responses_hide_internal_id :
    (∀ (d : StoredDoc) (n : Nat), popId { d with oid := n } = popId d) ∧
    (∀ r : MoodEntryResponse,
      r = ⟨r.id, r.date, r.mood_type, r.emoji, r.notes, r.timestamp⟩) ∧
    (∀ (s : Store) (mood : MoodEntryReq) (newId : String) (oid : Nat)
       (now : String) (resp : MoodEntryResponse) (s' : Store),
      create_mood_entry s mood newId oid now = (.ok resp, s') →
      ∃ d ∈ s', resp = popId d) ∧
    (∀ (s : Store) (r : MoodEntryResponse), r ∈ get_mood_entries s →
      ∃ d ∈ s, r = popId d) ∧
    (∀ (s : Store) (mood_id : String) (resp : MoodEntryResponse),
      get_mood_entry s mood_id = .ok resp → ∃ d ∈ s, resp = popId d) ∧
    (∀ (s : Store) (mood_id : String) (mood : MoodEntryReq) (now : String)
       (resp : MoodEntryResponse) (s' : Store),
      update_mood_entry s mood_id mood now = (.ok resp, s') →
      ∃ d ∈ s', resp = popId d) := by
  refine ⟨fun d n => rfl, fun r => rfl, ?_, ?_, ?_, ?_⟩
  · intro s mood newId oid now resp s' h
    unfold create_mood_entry at h
    revert h
    cases hf : s.find? (fun doc => doc.date == mood.date.isoStr) with
    | some d =>
      intro h
      simp at h
    | none =>
      intro h
      dsimp only at h
      rw [Prod.mk.injEq] at h
      refine ⟨_, ?_, (Except.ok.inj h.1).symm⟩
      rw [← h.2]
      exact List.mem_append.mpr (Or.inr (by simp))
  · intro s r hr
    unfold get_mood_entries at hr
    rcases List.mem_map.mp hr with ⟨d, hd, rfl⟩
    exact ⟨d, List.mem_mergeSort.mp hd, rfl⟩
  · intro s mood_id resp h
    unfold get_mood_entry at h
    revert h
    cases hf : s.find? (fun doc => doc.id == mood_id) with
    | some m =>
      intro h
      exact ⟨m, List.mem_of_find?_eq_some hf, (Except.ok.inj h).symm⟩
    | none =>
      intro h
      simp at h
  · intro s mood_id mood now resp s' h
    unfold update_mood_entry at h
    revert h
    cases hf : s.find? (fun doc => doc.id == mood_id) with
    | none =>
      intro h
      simp at h
    | some d =>
      dsimp only
      cases hf2 : (setFirst (fun doc => doc.id == mood_id)
          (applyUpdate mood now) s).find? (fun doc => doc.id == mood_id) with
      | some u =>
        intro h
        rw [Prod.mk.injEq] at h
        refine ⟨u, ?_, (Except.ok.inj h.1).symm⟩
        rw [← h.2]
        exact List.mem_of_find?_eq_some hf2
      | none =>
        intro h
        simp at h

theorem responses_hide_internal_id_witness :
    popId { (⟨0, "a", "2024-01-01", "happy", "e", "", "t"⟩ : StoredDoc)
        with oid := 9 } =
      popId ⟨0, "a", "2024-01-01", "happy", "e", "", "t"⟩ ∧
    (∃ d ∈ ([⟨3, "b", "2024-01-02", "sad", "f", "", "t"⟩] : Store),
      popId ⟨3, "b", "2024-01-02", "sad", "f", "", "t"⟩ = popId d) ∧
    (∃ d ∈ ([⟨3, "b", "2024-01-02", "sad", "f", "", "t"⟩] : Store),
      popId ⟨3, "b", "2024-01-02", "sad", "f", "", "t"⟩ = popId d ∧ True) :=
  ⟨responses_hide_internal_id.1 ⟨0, "a", "2024-01-01", "happy", "e", "", "t"⟩ 9,
   responses_hide_internal_id.2.2.2.2.1
     [⟨3, "b", "2024-01-02", "sad", "f", "", "t"⟩] "b"
     (popId ⟨3, "b", "2024-01-02", "sad", "f", "", "t"⟩) rfl,
   by
     rcases responses_hide_internal_id.2.2.2.1
         [⟨3, "b", "2024-01-02", "sad", "f", "", "t"⟩]
         (popId ⟨3, "b", "2024-01-02", "sad", "f", "", "t"⟩)
         (List.mem_map.mpr ⟨⟨3, "b", "2024-01-02", "sad", "f", "", "t"⟩,
           List.mem_mergeSort.mpr (by simp), rfl⟩) with ⟨d, hd, he⟩
     exact ⟨d, hd, he, trivial⟩⟩

/-! ### C8: statistics -/

theorem enrich_count (p : String × Nat) : (enrich p).count = p.2 := by
  unfold enrich
  cases MOOD_OPTIONS.find? (fun m => m.type == p.1) with
  | some m => rfl
  | none => rfl

theorem enrich_type (p : String × Nat) : (enrich p).mood_type = p.1 := by
  unfold enrich
  cases MOOD_OPTIONS.find? (fun m => m.type == p.1) with
  | some m => rfl
  | none => rfl

theorem mood_distribution_map_type (s : Store) :
    (mood_distribution s).map (fun e => e.mood_type) =
      ((groupCounts s).mergeSort (fun a b => decide (b.2 ≤ a.2))).map
        (fun p => p.1) := by
  unfold mood_distribution
  rw [List.map_map]
  refine List.map_congr_left ?_
  intro p _
  show (enrich p).mood_type = p.1
  exact enrich_type p

theorem groupCounts_map_fst (s : Store) :
    (groupCounts s).map (fun p => p.1) =
      (s.map (fun d => d.mood_type)).dedup := by
  unfold groupCounts
  rw [List.map_map]
  have hcomp : ((fun p : String × Nat => p.1) ∘ fun t => (t, countType s t))
      = fun t => t := rfl
  rw [hcomp, List.map_id']

/-- C8: the stats endpoint reports the exact number of stored entries and a
distribution with exactly one element per distinct mood type present, its
count the number of entries of that type, sorted by count descending;
emoji and label come from the matching static option, falling back to the
placeholder glyph and the title-cased type when none matches. -/
theorem stats_spec (s : Store) :
    (get_mood_stats s).total_entries = s.length ∧
    ((get_mood_stats s).mood_distribution).Pairwise
      (fun a b => b.count ≤ a.count) ∧
    (((get_mood_stats s).mood_distribution).map (fun e => e.mood_type)).Nodup ∧
    (∀ t : String,
      t ∈ ((get_mood_stats s).mood_distribution).map (fun e => e.mood_type) ↔
      t ∈ s.map (fun d => d.mood_type)) ∧
    (∀ e ∈ (get_mood_stats s).mood_distribution,
      e.count = countType s e.mood_type ∧
      ((∃ m ∈ MOOD_OPTIONS, m.type = e.mood_type ∧ e.emoji = m.emoji ∧
          e.label = m.label) ∨
       ((∀ m ∈ MOOD_OPTIONS, m.type ≠ e.mood_type) ∧
        e.emoji = placeholderEmoji ∧ e.label = titleCase e.mood_type))) := by
  have hdist : (get_mood_stats s).mood_distribution = mood_distribution s := rfl
  have hperm : ((groupCounts s).mergeSort (fun a b => decide (b.2 ≤ a.2))).Perm
      (groupCounts s) := List.mergeSort_perm _ _
  have hpermtype : (((get_mood_stats s).mood_distribution).map
      (fun e => e.mood_type)).Perm ((s.map (fun d => d.mood_type)).dedup) := by
    rw [hdist, mood_distribution_map_type, ← groupCounts_map_fst]
    exact List.Perm.map _ hperm
  refine ⟨rfl, ?_, ?_, ?_, ?_⟩
  · have htrans : ∀ a b c : String × Nat, decide (b.2 ≤ a.2) = true →
        decide (c.2 ≤ b.2) = true → decide (c.2 ≤ a.2) = true := by
      intro a b c hab hbc
      simp only [decide_eq_true_eq] at hab hbc ⊢
      exact le_trans hbc hab
    have htotal : ∀ a b : String × Nat,
        (decide (b.2 ≤ a.2) || decide (a.2 ≤ b.2)) = true := by
      intro a b
      simp only [Bool.or_eq_true, decide_eq_true_eq]
      exact le_total b.2 a.2
    have hs := List.sorted_mergeSort htrans htotal (groupCounts s)
    have hs' : ((groupCounts s).mergeSort
        (fun a b => decide (b.2 ≤ a.2))).Pairwise (fun a b => b.2 ≤ a.2) :=
      hs.imp (fun h => by simpa using h)
    rw [hdist]
    unfold mood_distribution
    refine List.Pairwise.map enrich ?_ hs'
    intro a b h
    rw [enrich_count, enrich_count]
    exact h
  · exact hpermtype.nodup_iff.mpr (List.nodup_dedup _)
  · intro t
    rw [hpermtype.mem_iff, List.mem_dedup]
  · intro e he
    rw [hdist] at he
    unfold mood_distribution at he
    rcases List.mem_map.mp he with ⟨p, hp, rfl⟩
    have hp2 : p ∈ groupCounts s := hperm.subset hp
    unfold groupCounts at hp2
    rcases List.mem_map.mp hp2 with ⟨t, _, rfl⟩
    constructor
    · rw [enrich_count, enrich_type]
    · unfold enrich
      cases hf : MOOD_OPTIONS.find? (fun m => m.type == (t, countType s t).1) with
      | some m =>
        left
        refine ⟨m, List.mem_of_find?_eq_some hf, ?_, rfl, rfl⟩
        have := List.find?_some (p := fun (m : MoodOption) =>
          m.type == (t, countType s t).1) hf
        simpa using this
      | none =>
        right
        rw [List.find?_eq_none] at hf
        refine ⟨?_, rfl, rfl⟩
        intro m hm he2
        have := hf m hm
        rw [he2] at this
        simp at this

theorem stats_spec_witness :
    "happy" ∈ ((get_mood_stats
        [⟨0, "a", "2024-01-01", "happy", "e", "", "t"⟩,
         ⟨1, "b", "2024-01-02", "happy", "e", "", "t"⟩,
         ⟨2, "c", "2024-01-03", "sad", "f", "", "t"⟩]).mood_distribution).map
      (fun e => e.mood_type) ∧
    (get_mood_stats
        [⟨0, "a", "2024-01-01", "happy", "e", "", "t"⟩,
         ⟨1, "b", "2024-01-02", "happy", "e", "", "t"⟩,
         ⟨2, "c", "2024-01-03", "sad", "f", "", "t"⟩]).total_entries = 3 :=
  ⟨(stats_spec _).2.2.2.1 "happy" |>.mpr (by simp),
   (stats_spec _).1⟩

/-! ### C7: CSV export -/

theorem mem_escapeQuotes {c : Char} {l : List Char} (h : c ∉ l)
    (hc : c ≠ '"') : c ∉ escapeQuotes l := by
  induction l with
  | nil =>
    rw [escapeQuotes]
    simp
  | cons a rest ih =>
    have h1 : c ≠ a := fun e => h (e ▸ List.mem_cons_self a rest)
    have h2 : c ∉ rest := fun m => h (List.mem_cons_of_mem _ m)
    rw [escapeQuotes]
    by_cases ha : (a == '"') = true
    · rw [if_pos ha]
      intro hm
      rcases List.mem_cons.mp hm with rfl | hm2
      · exact hc rfl
      · rcases List.mem_cons.mp hm2 with rfl | hm3
        · exact hc rfl
        · exact ih h2 hm3
    · rw [if_neg ha]
      intro hm
      rcases List.mem_cons.mp hm with rfl | hm2
      · exact h1 rfl
      · exact ih h2 hm2

theorem mem_csvField {c : Char} {f : List Char} (h : c ∉ f)
    (hc : c ≠ '"') : c ∉ csvField f := by
  rw [csvField]
  by_cases hq : needsQuote f = true
  · rw [if_pos hq]
    intro hm
    rcases List.mem_cons.mp hm with rfl | hm2
    · exact hc rfl
    · rcases List.mem_append.mp hm2 with hm3 | hm4
      · exact mem_escapeQuotes h hc hm3
      · rcases List.mem_singleton.mp hm4 with rfl
        exact hc rfl
  · rw [if_neg hq]
    exact h

theorem mem_joinComma {c : Char} {fs : List (List Char)}
    (h : ∀ f ∈ fs, c ∉ f) (hc : c ≠ ',') : c ∉ joinComma fs := by
  induction fs with
  | nil =>
    rw [joinComma]
    simp
  | cons f rest ih =>
    cases rest with
    | nil =>
      rw [joinComma]
      exact h f (List.mem_cons_self _ _)
    | cons g rest2 =>
      rw [joinComma]
      intro hmem
      rcases List.mem_append.mp hmem with h1 | h2
      · exact h f (List.mem_cons_self _ _) h1
      · rcases List.mem_cons.mp h2 with rfl | h3
        · exact hc rfl
        · exact ih (fun f2 hf2 => h f2 (List.mem_cons_of_mem _ hf2)) h3

theorem count_csvLine_newline (fields : List (List Char))
    (h : ∀ f ∈ fields, ('\n' : Char) ∉ f) :
    (csvLine fields).count '\n' = 1 := by
  rw [csvLine, List.count_append]
  have hjoin : ('\n' : Char) ∉ joinComma (fields.map csvField) := by
    refine mem_joinComma ?_ (by decide)
    intro f hf
    rcases List.mem_map.mp hf with ⟨f0, hf0, rfl⟩
    exact mem_csvField (h f0 hf0) (by decide)
  rw [List.count_eq_zero.mpr hjoin]
  decide

theorem sum_map_one {X : Type} (l : List X) :
    (l.map (fun _ => (1 : Nat))).sum = l.length := by
  induction l with
  | nil => rfl
  | cons a rest ih =>
    simp [ih]
    omega

/-- C7 counterexample: the header row written by the code is
`Date,Mood,Emoji,Notes,Timestamp` followed by CRLF — it has no spaces after
the commas, so the claimed exact header text is not returned; and a notes
field containing a line feed is quoted, making the exported text of a
one-entry store span 3 lines rather than N+1 = 2. -/
theorem export_csv_header_counterexample :
    export_moods_csv [] = "Date,Mood,Emoji,Notes,Timestamp\r\n" ∧
    export_moods_csv [] ≠ "Date, Mood, Emoji, Notes, Timestamp" ∧
    export_moods_csv [] ≠ "Date, Mood, Emoji, Notes, Timestamp\r\n" ∧
    numLines (export_moods_csv
      [⟨0, "a", "2024-01-01", "happy", "e", "x\ny", "t"⟩]) = 3 := by
  have h0 : export_moods_csv [] = "Date,Mood,Emoji,Notes,Timestamp\r\n" := by
    unfold export_moods_csv sortByDateDesc
    rw [List.mergeSort_nil]
    rfl
  refine ⟨h0, ?_, ?_, ?_⟩
  · rw [h0]
    decide
  · rw [h0]
    decide
  · unfold export_moods_csv sortByDateDesc numLines
    rw [List.mergeSort_singleton]
    decide

/-- C7 (amended): on the empty store the export is exactly the single
CRLF-terminated header line `Date,Mood,Emoji,Notes,Timestamp` (no spaces
after the commas); on a store of N entries none of whose rendered CSV
fields contains a line feed, the export has exactly N+1 LF characters —
header plus one CRLF-terminated row per entry, rows ordered by date
descending exactly as the list endpoint orders them; each row carries the
date, the mood type with underscores replaced by spaces and title-cased
(so `very_happy` becomes `Very Happy`), the emoji, the notes, and the
ISO rendering of the stored timestamp. -/
theorem export_csv_spec (s : Store) :
    export_moods_csv [] = "Date,Mood,Emoji,Notes,Timestamp\r\n" ∧
    ((∀ d ∈ s, ∀ f ∈ csvRowOf d, ('\n' : Char) ∉ f) →
      numLines (export_moods_csv s) = s.length + 1) ∧
    ((sortByDateDesc s).Perm s ∧
      (sortByDateDesc s).Pairwise (fun a b => b.date ≤ a.date)) ∧
    (∀ d : StoredDoc, csvRowOf d =
      [d.date.data, (moodRender d.mood_type).data, d.emoji.data,
       d.notes.data, d.timestamp.data]) ∧
    moodRender "very_happy" = "Very Happy" := by
  refine ⟨?_, ?_, ⟨List.mergeSort_perm s dateDesc, sortByDateDesc_sorted s⟩,
    fun d => rfl, by decide⟩
  · unfold export_moods_csv sortByDateDesc
    rw [List.mergeSort_nil]
    rfl
  · intro hclean
    show (((csvHeader :: (sortByDateDesc s).map csvRowOf).map
      csvLine).flatten).count '\n' = s.length + 1
    rw [List.count_flatten, List.map_cons, List.map_cons, List.sum_cons]
    have hhead : (csvLine csvHeader).count '\n' = 1 :=
      count_csvLine_newline _ (by decide)
    have hrows : List.map (List.count '\n')
        (((sortByDateDesc s).map csvRowOf).map csvLine) =
        List.map (fun _ => (1 : Nat)) ((sortByDateDesc s).map csvRowOf) := by
      rw [List.map_map]
      refine List.map_congr_left ?_
      intro r hr
      rcases List.mem_map.mp hr with ⟨d, hd, rfl⟩
      have hd2 : d ∈ s := List.mem_mergeSort.mp hd
      exact count_csvLine_newline _ (hclean d hd2)
    rw [hhead, hrows, sum_map_one, List.length_map]
    show 1 + (sortByDateDesc s).length = s.length + 1
    rw [Nat.add_comm]
    unfold sortByDateDesc
    rw [List.length_mergeSort]

theorem export_csv_spec_witness :
    export_moods_csv [] = "Date,Mood,Emoji,Notes,Timestamp\r\n" ∧
    numLines (export_moods_csv
      [⟨0, "a", "2024-01-02", "happy", "e", "fine", "t"⟩,
       ⟨1, "b", "2024-01-10", "sad", "f", "", "t"⟩]) = 3 :=
  ⟨(export_csv_spec []).1,
   (export_csv_spec
     [⟨0, "a", "2024-01-02", "happy", "e", "fine", "t"⟩,
      ⟨1, "b", "2024-01-10", "sad", "f", "", "t"⟩]).2.1 (by decide)⟩
